import Mathlib

/-!
Verification of the cache-fronted storage coordinator of the vida-redis-poc
repository: a shallow embedding of `src/lib/redis.ts` (`RedisCacheService`,
the CacheStore) and `src/lib/github.ts` (`GitHubService`, the PostCoordinator),
together with theorems settling the specification's claims about them.

Modelling conventions:
- ISO-8601 timestamp strings are modelled by their `Date.getTime()` value, an
  integer number of milliseconds (`Int`).  The freshness test
  `(now.getTime() - cacheTime.getTime()) / 1000 > CACHE_TTL` of redis.ts uses
  exact real division, so it is equivalent to
  `now - cachedAt > CACHE_TTL * 1000` in milliseconds.
- The Redis backend is modelled by an optional `RedisData` value (`none` when
  the client is unconfigured, mirroring the `if (!redis)` guards) plus a
  `healthy` flag: when `healthy` is false every backend call throws, is caught
  by the service's `try/catch`, and degrades to a no-op or absent result.
- `SETEX key ttl value` stores the value together with its store time; a read
  after the physical time-to-live has elapsed finds the key expired and
  behaves as a missing key, exactly as the Redis backend would.
- GitHub (the durable store) is modelled as an association list from post id
  (the file `posts/{id}.json`) to the parsed `BlogPost` it contains.  Durable
  transport failures are injected through explicit boolean parameters
  (`readOk`, `writeOk`, `listOk`, `delOk`, and a `failIds` list for per-file
  read failures during a listing); commit messages, commit attribution and
  the opportunistically fetched file SHA affect no observable state and are
  omitted.  The dead `isDevelopment` branches (the flag is the compile-time
  constant `false`) are omitted.
-/

/-- Freshness window in seconds: `RedisCacheService.CACHE_TTL` in
src/lib/redis.ts. -/
def CACHE_TTL : Int := 420

/-- The freshness window expressed in milliseconds, the unit of
`Date.getTime()`. -/
def ttlMillis : Int := CACHE_TTL * 1000

/-- The `BlogPost` record of src/lib/github.ts: the durable unit of content.
Timestamps are `getTime()` values (milliseconds). -/
structure BlogPost where
  id : String
  title : String
  content : String
  author : String
  createdAt : Int
  updatedAt : Int
  published : Bool
  deriving DecidableEq, Repr

/-- The `CachedBlogPost` record of src/lib/redis.ts: a `BlogPost` plus the
`cachedAt` stamp. -/
structure CachedBlogPost where
  id : String
  title : String
  content : String
  author : String
  createdAt : Int
  updatedAt : Int
  published : Bool
  cachedAt : Int
  deriving DecidableEq, Repr

/-- The spread `{...post, cachedAt}` used by the coordinator to build a
`CachedBlogPost` from a `BlogPost`. -/
def toCached (p : BlogPost) (cachedAt : Int) : CachedBlogPost :=
  { id := p.id, title := p.title, content := p.content, author := p.author,
    createdAt := p.createdAt, updatedAt := p.updatedAt,
    published := p.published, cachedAt := cachedAt }

/-- The explicit field projection the coordinator applies to cached records
before returning them (dropping `cachedAt`). -/
def toBlogPost (c : CachedBlogPost) : BlogPost :=
  { id := c.id, title := c.title, content := c.content, author := c.author,
    createdAt := c.createdAt, updatedAt := c.updatedAt,
    published := c.published }

/-- A value written to the Redis backend with `SETEX`: the payload together
with the time it was stored, which determines its physical expiry. -/
structure Stored (α : Type) where
  storedAt : Int
  value : α
  deriving DecidableEq, Repr

/-- The contents of the Redis backend used by src/lib/redis.ts: the list
snapshot under key `blog:posts:list` and the single-post entries under keys
`blog:post:{id}` (the two key shapes never collide, so they are kept in
separate fields). -/
structure RedisData where
  postsList : Option (Stored (List CachedBlogPost))
  posts : List (String × Stored CachedBlogPost)
  deriving DecidableEq, Repr

/-- The cache backend as seen by `RedisCacheService`: `redis = none` models
the unconfigured client (`if (!redis)` guards), and `healthy = false` models
a backend whose every call throws (caught by each method's `try/catch`). -/
structure CacheState where
  redis : Option RedisData
  healthy : Bool
  deriving DecidableEq, Repr

/-- The logical staleness test of src/lib/redis.ts:
`(now - cachedAt) / 1000 > CACHE_TTL`, in milliseconds. -/
def isStale (now cachedAt : Int) : Bool := now - cachedAt > ttlMillis

/-- Physical expiry of a `SETEX`-written key: past the time-to-live the
backend reports the key as missing. -/
def physGone (now storedAt : Int) : Bool := now - storedAt > ttlMillis

/-- Insert-or-overwrite for an association list keyed by strings, modelling a
backend `SET` of one key. -/
def setEntry {β : Type} (l : List (String × β)) (k : String) (v : β) :
    List (String × β) :=
  (k, v) :: l.filter (fun e => e.1 != k)

/-- Deletion of one key from an association list, modelling a backend `DEL`. -/
def delEntry {β : Type} (l : List (String × β)) (k : String) :
    List (String × β) :=
  l.filter (fun e => e.1 != k)

/-- `RedisCacheService.getAllPosts`: absent if unconfigured, erroring,
physically expired, or no snapshot; absent if **some** entry of the snapshot
is stale; otherwise the stored snapshot. -/
def RedisCacheService.getAllPosts (st : CacheState) (now : Int) :
    Option (List CachedBlogPost) :=
  match st.redis with
  | none => none
  | some d =>
    if st.healthy then
      match d.postsList with
      | none => none
      | some s =>
        if physGone now s.storedAt then none
        else if s.value.any (fun p => isStale now p.cachedAt) then none
        else some s.value
    else none

/-- `RedisCacheService.setAllPosts`: stamps every entry with the current time
and stores the snapshot with `SETEX`; no-op when unconfigured or erroring. -/
def RedisCacheService.setAllPosts (st : CacheState)
    (posts : List CachedBlogPost) (now : Int) : CacheState :=
  match st.redis with
  | none => st
  | some d =>
    if st.healthy then
      let stamped := posts.map (fun p => { p with cachedAt := now })
      { st with redis := some { d with postsList := some ⟨now, stamped⟩ } }
    else st

/-- `RedisCacheService.getPost`: absent if unconfigured, erroring, missing,
physically expired, or stale; otherwise the cached record. -/
def RedisCacheService.getPost (st : CacheState) (id : String) (now : Int) :
    Option CachedBlogPost :=
  match st.redis with
  | none => none
  | some d =>
    if st.healthy then
      match d.posts.lookup id with
      | none => none
      | some s =>
        if physGone now s.storedAt then none
        else if isStale now s.value.cachedAt then none
        else some s.value
    else none

/-- `RedisCacheService.setPost`: stamps the record and stores it with `SETEX`
under the record's own id; no-op when unconfigured or erroring. -/
def RedisCacheService.setPost (st : CacheState) (post : CachedBlogPost)
    (now : Int) : CacheState :=
  match st.redis with
  | none => st
  | some d =>
    if st.healthy then
      let stamped : Stored CachedBlogPost := ⟨now, { post with cachedAt := now }⟩
      { st with redis := some { d with posts := setEntry d.posts post.id stamped } }
    else st

/-- `RedisCacheService.invalidatePost`: unconditionally removes the single
post entry; no-op when unconfigured or erroring. -/
def RedisCacheService.invalidatePost (st : CacheState) (id : String) :
    CacheState :=
  match st.redis with
  | none => st
  | some d =>
    if st.healthy then
      { st with redis := some { d with posts := delEntry d.posts id } }
    else st

/-- `RedisCacheService.invalidateAllPosts`: unconditionally removes the list
snapshot (single post entries untouched); no-op when unconfigured or
erroring. -/
def RedisCacheService.invalidateAllPosts (st : CacheState) : CacheState :=
  match st.redis with
  | none => st
  | some d =>
    if st.healthy then { st with redis := some { d with postsList := none } }
    else st

/-- `RedisCacheService.isAvailable`: `PING` probe; false when unconfigured or
when the backend errors. -/
def RedisCacheService.isAvailable (st : CacheState) : Bool :=
  match st.redis with
  | none => false
  | some _ => st.healthy

/-- The list snapshot currently held by the cache backend (observable used to
state list-level claims). -/
def listSnapshot (st : CacheState) : Option (Stored (List CachedBlogPost)) :=
  match st.redis with
  | none => none
  | some d => d.postsList

/-- The single-post entry currently held by the cache backend for a given id
(observable used to state entry-level claims). -/
def cacheEntry (st : CacheState) (id : String) :
    Option (Stored CachedBlogPost) :=
  match st.redis with
  | none => none
  | some d => d.posts.lookup id

/-- Combined state of the two stores the coordinator reconciles: the cache
backend and the GitHub-backed durable store (posts keyed by id, i.e. by the
file `posts/{id}.json`). -/
structure World where
  cache : CacheState
  github : List (String × BlogPost)
  deriving DecidableEq, Repr

/-- The draft accepted by `createPost`:
`Omit<BlogPost, "id" | "createdAt" | "updatedAt">`. -/
structure PostDraft where
  title : String
  content : String
  author : String
  published : Bool
  deriving DecidableEq, Repr

/-- The partial update accepted by `updatePost`:
`Partial<Omit<BlogPost, "id" | "createdAt">>` (an `updatedAt` field in the
partial is irrelevant, being overwritten by the merge). -/
structure PostUpdates where
  title : Option String
  content : Option String
  author : Option String
  published : Option Bool
  deriving DecidableEq, Repr

/-- The comparator `(a, b) => b.createdAt - a.createdAt` used by
`GitHubService.getAllPosts`: `a` sorts before `b` when its `createdAt` is the
larger. -/
def createdAtDesc (a b : BlogPost) : Prop := b.createdAt ≤ a.createdAt

instance : DecidableRel createdAtDesc :=
  fun a b => inferInstanceAs (Decidable (b.createdAt ≤ a.createdAt))

instance : IsTotal BlogPost createdAtDesc :=
  ⟨fun a b => Int.le_total b.createdAt a.createdAt⟩

instance : IsTrans BlogPost createdAtDesc :=
  ⟨fun _ _ _ hab hbc => le_trans hbc hab⟩

/-- `posts.sort((a, b) => ...)`: JavaScript guarantees only that the result
is sorted by the comparator; modelled by a stable sort. -/
def sortPosts (l : List BlogPost) : List BlogPost :=
  List.insertionSort createdAtDesc l

/-- The durable listing of `GitHubService.getAllPosts`: reads the `posts`
directory (empty when the directory read errors, `listOk = false`), skips the
files whose individual reads fail (`failIds`), and sorts by `createdAt`
descending. -/
def ghFetchAllSorted (gh : List (String × BlogPost)) (listOk : Bool)
    (failIds : List String) : List BlogPost :=
  if listOk then
    sortPosts ((gh.filter (fun e => !(failIds.contains e.1))).map (·.2))
  else []

/-- `GitHubService.getAllPosts`: probe the cache; serve a non-null non-empty
cached snapshot; otherwise fetch the full sorted list from GitHub without
repopulating the cache. -/
def GitHubService.getAllPosts (w : World) (now : Int) (listOk : Bool)
    (failIds : List String) : List BlogPost × World :=
  let isRedisAvailable := RedisCacheService.isAvailable w.cache
  let cachedPosts :=
    if isRedisAvailable then RedisCacheService.getAllPosts w.cache now
    else none
  match cachedPosts with
  | some cached =>
    if cached.length > 0 then (cached.map toBlogPost, w)
    else (ghFetchAllSorted w.github listOk failIds, w)
  | none => (ghFetchAllSorted w.github listOk failIds, w)

/-- `GitHubService.getPost`: probe the cache; serve a cache hit; otherwise
read `posts/{id}.json` from GitHub (absent on transport failure or missing
file) without repopulating the cache. -/
def GitHubService.getPost (w : World) (id : String) (now : Int)
    (readOk : Bool) : Option BlogPost × World :=
  let isRedisAvailable := RedisCacheService.isAvailable w.cache
  let cachedPost :=
    if isRedisAvailable then RedisCacheService.getPost w.cache id now
    else none
  match cachedPost with
  | some c => (some (toBlogPost c), w)
  | none => (if readOk then w.github.lookup id else none, w)

/-- The post assembled by `createPost`: id from `Date.now().toString()`, both
timestamps set to now. -/
def mkNewPost (draft : PostDraft) (now : Int) : BlogPost :=
  { id := toString now, title := draft.title, content := draft.content,
    author := draft.author, createdAt := now, updatedAt := now,
    published := draft.published }

/-- `GitHubService.createPost`: assemble the post, optimistically cache it
when the cache is available, then write it durably; on success invalidate the
list snapshot, on failure invalidate the optimistic single-post entry and
report failure. -/
def GitHubService.createPost (w : World) (draft : PostDraft) (now : Int)
    (writeOk : Bool) : Option BlogPost × World :=
  let newPost := mkNewPost draft now
  let isRedisAvailable := RedisCacheService.isAvailable w.cache
  let c1 :=
    if isRedisAvailable then
      RedisCacheService.setPost w.cache (toCached newPost now) now
    else w.cache
  if writeOk then
    let c2 :=
      if isRedisAvailable then RedisCacheService.invalidateAllPosts c1 else c1
    (some newPost, { cache := c2, github := setEntry w.github newPost.id newPost })
  else
    let c2 :=
      if isRedisAvailable then RedisCacheService.invalidatePost c1 newPost.id
      else c1
    (none, { cache := c2, github := w.github })

/-- The merge `{...existingPost, ...updates, updatedAt: now}` of
`updatePost`: partial fields override, `id` and `createdAt` are preserved,
`updatedAt` is refreshed. -/
def applyUpdates (p : BlogPost) (u : PostUpdates) (now : Int) : BlogPost :=
  { id := p.id
    title := u.title.getD p.title
    content := u.content.getD p.content
    author := u.author.getD p.author
    createdAt := p.createdAt
    updatedAt := now
    published := u.published.getD p.published }

/-- `GitHubService.updatePost`: load the existing post through the read path
(NotFound if absent), merge the updates, optimistically cache the merged
post, then write it durably (the file SHA is fetched best-effort and does not
affect observable state); on success invalidate the list snapshot, on failure
re-cache the pre-update post with a fresh stamp and report failure. -/
def GitHubService.updatePost (w : World) (id : String) (updates : PostUpdates)
    (now : Int) (readOk writeOk : Bool) : Option BlogPost × World :=
  match (GitHubService.getPost w id now readOk).1 with
  | none => (none, w)
  | some existingPost =>
    let updatedPost := applyUpdates existingPost updates now
    let isRedisAvailable := RedisCacheService.isAvailable w.cache
    let c1 :=
      if isRedisAvailable then
        RedisCacheService.setPost w.cache (toCached updatedPost now) now
      else w.cache
    if writeOk then
      let c2 :=
        if isRedisAvailable then RedisCacheService.invalidateAllPosts c1
        else c1
      (some updatedPost, { cache := c2, github := setEntry w.github id updatedPost })
    else
      let c2 :=
        if isRedisAvailable then
          RedisCacheService.setPost c1 (toCached existingPost now) now
        else c1
      (none, { cache := c2, github := w.github })

/-- `GitHubService.deletePost`: optimistically invalidate the single-post
cache entry, then fetch the durable record's SHA (failure, in particular a
missing file, reports NotFound) and delete the file; on success invalidate
the list snapshot. -/
def GitHubService.deletePost (w : World) (id : String) (delOk : Bool) :
    Bool × World :=
  let isRedisAvailable := RedisCacheService.isAvailable w.cache
  let c1 :=
    if isRedisAvailable then RedisCacheService.invalidatePost w.cache id
    else w.cache
  match w.github.lookup id with
  | none => (false, { cache := c1, github := w.github })
  | some _ =>
    if delOk then
      let c2 :=
        if isRedisAvailable then RedisCacheService.invalidateAllPosts c1
        else c1
      (true, { cache := c2, github := delEntry w.github id })
    else (false, { cache := c1, github := w.github })

/-- One coordinator call, with its injected clock and durable-transport
outcomes. -/
inductive Op where
  | listAll (now : Int) (listOk : Bool) (failIds : List String)
  | getOne (id : String) (now : Int) (readOk : Bool)
  | create (draft : PostDraft) (now : Int) (writeOk : Bool)
  | update (id : String) (updates : PostUpdates) (now : Int)
      (readOk writeOk : Bool)
  | remove (id : String) (delOk : Bool)
  deriving DecidableEq, Repr

/-- State transition of one coordinator call (the returned value is
projected away). -/
def Op.apply (w : World) : Op → World
  | .listAll now listOk failIds =>
      (GitHubService.getAllPosts w now listOk failIds).2
  | .getOne id now readOk => (GitHubService.getPost w id now readOk).2
  | .create draft now writeOk =>
      (GitHubService.createPost w draft now writeOk).2
  | .update id updates now readOk writeOk =>
      (GitHubService.updatePost w id updates now readOk writeOk).2
  | .remove id delOk => (GitHubService.deletePost w id delOk).2

/-- State after a finite sequence of coordinator calls. -/
def applyOps (w : World) (ops : List Op) : World := ops.foldl Op.apply w

/-- A configured, healthy, empty cache backend. -/
def availCache : CacheState := ⟨some ⟨none, []⟩, true⟩

/-- The initial world: empty healthy cache, empty durable store. -/
def initWorld : World := ⟨availCache, []⟩

/-- A world whose cache backend is unconfigured. -/
def noCacheWorld : World := ⟨⟨none, true⟩, []⟩

/-- A sample durable post. -/
def samplePost : BlogPost := ⟨"7", "t", "c", "a", 7, 7, true⟩

/-- A sample draft. -/
def sampleDraft : PostDraft := ⟨"t", "c", "a", true⟩

/-- A sample partial update. -/
def sampleUpdates : PostUpdates := ⟨some "t2", none, none, none⟩

theorem lookup_setEntry_self {β : Type} (l : List (String × β)) (k : String)
    (v : β) : (setEntry l k v).lookup k = some v := by
  simp [setEntry, List.lookup]

theorem lookup_delEntry_self {β : Type} (l : List (String × β)) (k : String) :
    (delEntry l k).lookup k = none := by
  induction l with
  | nil => rfl
  | cons e rest ih =>
    by_cases h : e.1 = k
    · have hf : (e.1 != k) = false := by simp [h]
      simpa [delEntry, List.filter_cons, hf] using ih
    · have ht : (e.1 != k) = true := by simp [h]
      have hk : (k == e.1) = false := by simp [Ne.symm h]
      simpa [delEntry, List.filter_cons, ht, List.lookup, hk] using ih

theorem toBlogPost_toCached (p : BlogPost) (t : Int) :
    toBlogPost (toCached p t) = p := rfl

theorem stamp_map_eq_self (posts : List CachedBlogPost) (s : Int)
    (h : ∀ p ∈ posts, p.cachedAt = s) :
    posts.map (fun p => { p with cachedAt := s }) = posts := by
  induction posts with
  | nil => rfl
  | cons q rest ih =>
    have hq : q.cachedAt = s := h q (List.mem_cons_self q rest)
    have hqe : ({ q with cachedAt := s } : CachedBlogPost) = q := by
      rw [← hq]
    simp [hqe, ih (fun p hp => h p (List.mem_cons_of_mem q hp))]

theorem isAvailable_true_iff (st : CacheState) :
    RedisCacheService.isAvailable st = true ↔
      (∃ d, st.redis = some d) ∧ st.healthy = true := by
  cases hr : st.redis with
  | none => simp [RedisCacheService.isAvailable, hr]
  | some d => simp [RedisCacheService.isAvailable, hr]

theorem listSnapshot_setPost (st : CacheState) (p : CachedBlogPost)
    (now : Int) :
    listSnapshot (RedisCacheService.setPost st p now) = listSnapshot st := by
  cases hr : st.redis with
  | none => simp [RedisCacheService.setPost, hr]
  | some d =>
    by_cases hh : st.healthy <;>
      simp [RedisCacheService.setPost, hr, hh, listSnapshot]

theorem listSnapshot_invalidatePost (st : CacheState) (id : String) :
    listSnapshot (RedisCacheService.invalidatePost st id) = listSnapshot st := by
  cases hr : st.redis with
  | none => simp [RedisCacheService.invalidatePost, hr]
  | some d =>
    by_cases hh : st.healthy <;>
      simp [RedisCacheService.invalidatePost, hr, hh, listSnapshot]

theorem listSnapshot_invalidateAllPosts (st : CacheState)
    (h : listSnapshot st = none) :
    listSnapshot (RedisCacheService.invalidateAllPosts st) = none := by
  cases hr : st.redis with
  | none => simpa [RedisCacheService.invalidateAllPosts, hr] using h
  | some d =>
    by_cases hh : st.healthy <;>
      simp_all [RedisCacheService.invalidateAllPosts, hr, hh, listSnapshot]

theorem getAllPosts_snd (w : World) (now : Int) (listOk : Bool)
    (failIds : List String) :
    (GitHubService.getAllPosts w now listOk failIds).2 = w := by
  cases h : (if RedisCacheService.isAvailable w.cache then
      RedisCacheService.getAllPosts w.cache now else none) with
  | some cached =>
    by_cases hl : cached.length > 0 <;> simp [GitHubService.getAllPosts, h, hl]
  | none => simp [GitHubService.getAllPosts, h]

theorem getPost_snd (w : World) (id : String) (now : Int) (readOk : Bool) :
    (GitHubService.getPost w id now readOk).2 = w := by
  cases h : (if RedisCacheService.isAvailable w.cache then
      RedisCacheService.getPost w.cache id now else none) with
  | some c => simp [GitHubService.getPost, h]
  | none => simp [GitHubService.getPost, h]

theorem cache_getAllPosts_eq_none (st : CacheState) (now : Int)
    (h : listSnapshot st = none) :
    RedisCacheService.getAllPosts st now = none := by
  cases hr : st.redis with
  | none => simp [RedisCacheService.getAllPosts, hr]
  | some d =>
    have hd : d.postsList = none := by simpa [listSnapshot, hr] using h
    by_cases hh : st.healthy <;>
      simp [RedisCacheService.getAllPosts, hr, hh, hd]

theorem coord_getAllPosts_durable (w : World) (now : Int) (listOk : Bool)
    (failIds : List String) (h : listSnapshot w.cache = none) :
    (GitHubService.getAllPosts w now listOk failIds).1 =
      ghFetchAllSorted w.github listOk failIds := by
  have hc := cache_getAllPosts_eq_none w.cache now h
  by_cases ha : RedisCacheService.isAvailable w.cache <;>
    simp [GitHubService.getAllPosts, ha, hc]

theorem listSnapshot_createPost (w : World) (draft : PostDraft) (now : Int)
    (writeOk : Bool) (h : listSnapshot w.cache = none) :
    listSnapshot (GitHubService.createPost w draft now writeOk).2.cache
      = none := by
  by_cases ha : RedisCacheService.isAvailable w.cache
  · by_cases hw : writeOk
    · simp only [GitHubService.createPost, ha, hw, if_true]
      exact listSnapshot_invalidateAllPosts _
        (by rw [listSnapshot_setPost]; exact h)
    · simp [GitHubService.createPost, ha, hw, listSnapshot_invalidatePost,
        listSnapshot_setPost, h]
  · by_cases hw : writeOk <;>
      simp [GitHubService.createPost, ha, hw, h]

theorem listSnapshot_updatePost (w : World) (id : String)
    (updates : PostUpdates) (now : Int) (readOk writeOk : Bool)
    (h : listSnapshot w.cache = none) :
    listSnapshot (GitHubService.updatePost w id updates now readOk writeOk).2.cache
      = none := by
  cases hg : (GitHubService.getPost w id now readOk).1 with
  | none => simp [GitHubService.updatePost, hg, h]
  | some existing =>
    by_cases ha : RedisCacheService.isAvailable w.cache
    · by_cases hw : writeOk
      · simp only [GitHubService.updatePost, hg, ha, hw, if_true]
        exact listSnapshot_invalidateAllPosts _
          (by rw [listSnapshot_setPost]; exact h)
      · simp [GitHubService.updatePost, hg, ha, hw, listSnapshot_setPost, h]
    · by_cases hw : writeOk <;>
        simp [GitHubService.updatePost, hg, ha, hw, h]

theorem listSnapshot_deletePost (w : World) (id : String) (delOk : Bool)
    (h : listSnapshot w.cache = none) :
    listSnapshot (GitHubService.deletePost w id delOk).2.cache = none := by
  cases hg : w.github.lookup id with
  | none =>
    by_cases ha : RedisCacheService.isAvailable w.cache <;>
      simp [GitHubService.deletePost, hg, ha, listSnapshot_invalidatePost, h]
  | some p =>
    by_cases ha : RedisCacheService.isAvailable w.cache
    · by_cases hd : delOk
      · simp only [GitHubService.deletePost, hg, ha, hd, if_true]
        exact listSnapshot_invalidateAllPosts _
          (by rw [listSnapshot_invalidatePost]; exact h)
      · simp [GitHubService.deletePost, hg, ha, hd,
          listSnapshot_invalidatePost, h]
    · by_cases hd : delOk <;>
        simp [GitHubService.deletePost, hg, ha, hd, h]

theorem listSnapshot_step (w : World) (op : Op)
    (h : listSnapshot w.cache = none) :
    listSnapshot (Op.apply w op).cache = none := by
  cases op with
  | listAll now listOk failIds =>
    rw [Op.apply, getAllPosts_snd]; exact h
  | getOne id now readOk =>
    rw [Op.apply, getPost_snd]; exact h
  | create draft now writeOk =>
    exact listSnapshot_createPost w draft now writeOk h
  | update id updates now readOk writeOk =>
    exact listSnapshot_updatePost w id updates now readOk writeOk h
  | remove id delOk =>
    exact listSnapshot_deletePost w id delOk h

theorem listSnapshot_applyOps (ops : List Op) (w : World)
    (h : listSnapshot w.cache = none) :
    listSnapshot (applyOps w ops).cache = none := by
  induction ops generalizing w with
  | nil => exact h
  | cons op rest ih => exact ih (Op.apply w op) (listSnapshot_step w op h)

theorem chain_sortPosts (l : List BlogPost) :
    List.Chain' (fun a b => b.createdAt ≤ a.createdAt) (sortPosts l) := by
  have h : List.Sorted createdAtDesc (sortPosts l) :=
    List.sorted_insertionSort createdAtDesc l
  exact List.Pairwise.chain' h

theorem chain_ghFetchAllSorted (gh : List (String × BlogPost)) (listOk : Bool)
    (failIds : List String) :
    List.Chain' (fun a b => b.createdAt ≤ a.createdAt)
      (ghFetchAllSorted gh listOk failIds) := by
  by_cases hl : listOk
  · simpa [ghFetchAllSorted, hl] using
      chain_sortPosts ((gh.filter (fun e => !(failIds.contains e.1))).map (·.2))
  · simp [ghFetchAllSorted, hl]

/-- A fresh cached entry stamped at time 1000000. -/
def freshCached : CachedBlogPost := ⟨"2", "t", "c", "a", 0, 0, true, 1000000⟩

/-- A stale cached entry stamped at time 0. -/
def staleCached : CachedBlogPost := ⟨"1", "t", "c", "a", 0, 0, true, 0⟩

/-- A cache state holding a physically live list snapshot with one fresh and
one stale entry. -/
def staleSnapState : CacheState :=
  ⟨some ⟨some ⟨1000000, [freshCached, staleCached]⟩, []⟩, true⟩

/-- Claim C1: `CacheStore.getAllPosts` returns absent when no list snapshot
exists, and also returns absent whenever at least one entry of the stored
snapshot has `now - cachedAt` strictly greater than the freshness window: a
single stale entry makes the whole cached list absent, for every stored
snapshot and every current time. -/
theorem cache_getAllPosts_all_or_nothing (st : CacheState) (now : Int) :
    (listSnapshot st = none → RedisCacheService.getAllPosts st now = none) ∧
    (∀ s, listSnapshot st = some s →
      (∃ p ∈ s.value, now - p.cachedAt > ttlMillis) →
      RedisCacheService.getAllPosts st now = none) := by
  constructor
  · exact cache_getAllPosts_eq_none st now
  · intro s hs hstale
    cases hr : st.redis with
    | none => simp [RedisCacheService.getAllPosts, hr]
    | some d =>
      have hd : d.postsList = some s := by simpa [listSnapshot, hr] using hs
      by_cases hh : st.healthy
      · by_cases hp : physGone now s.storedAt
        · simp [RedisCacheService.getAllPosts, hr, hh, hd, hp]
        · have hany : s.value.any (fun p => isStale now p.cachedAt) = true := by
            obtain ⟨p, hpmem, hpst⟩ := hstale
            exact List.any_eq_true.mpr
              ⟨p, hpmem, by simpa [isStale] using hpst⟩
          simp [RedisCacheService.getAllPosts, hr, hh, hp, hd, hany]
      · simp [RedisCacheService.getAllPosts, hr, hh]

/-- Witness for C1 at concrete states: an empty backend, and a snapshot whose
second entry is stale at time 1000000. -/
theorem cache_getAllPosts_all_or_nothing_witness :
    RedisCacheService.getAllPosts ⟨some ⟨none, []⟩, true⟩ 0 = none ∧
    RedisCacheService.getAllPosts staleSnapState 1000000 = none := by
  refine ⟨(cache_getAllPosts_all_or_nothing ⟨some ⟨none, []⟩, true⟩ 0).1 rfl, ?_⟩
  exact (cache_getAllPosts_all_or_nothing staleSnapState 1000000).2
    ⟨1000000, [freshCached, staleCached]⟩ rfl
    ⟨staleCached, by decide, by decide⟩

/-- Claim C7: after `setAllPosts` stores a list whose entries all carry
`cachedAt` equal to the current (store) time, `getAllPosts` returns exactly
that list at every time strictly less than the freshness window after the
store, and absent at every time strictly greater than the window after the
store. -/
theorem setAllPosts_roundtrip (st : CacheState) (d : RedisData)
    (posts : List CachedBlogPost) (s t : Int) (hr : st.redis = some d)
    (hh : st.healthy = true) (hstamp : ∀ p ∈ posts, p.cachedAt = s) :
    (t - s < ttlMillis →
      RedisCacheService.getAllPosts
        (RedisCacheService.setAllPosts st posts s) t = some posts) ∧
    (t - s > ttlMillis →
      RedisCacheService.getAllPosts
        (RedisCacheService.setAllPosts st posts s) t = none) := by
  have hset : RedisCacheService.setAllPosts st posts s =
      { st with redis := some { d with postsList := some ⟨s, posts⟩ } } := by
    simp [RedisCacheService.setAllPosts, hr, hh,
      stamp_map_eq_self posts s hstamp]
  constructor
  · intro hfresh
    have hpg : physGone t s = false := by
      simp only [physGone, ttlMillis, CACHE_TTL] at hfresh ⊢
      simp; omega
    have hany : posts.any (fun p => isStale t p.cachedAt) = false := by
      rw [List.any_eq_false]
      intro p hp
      have hc := hstamp p hp
      simp only [isStale, ttlMillis, CACHE_TTL, hc] at hfresh ⊢
      simp; omega
    simp [hset, RedisCacheService.getAllPosts, hh, hpg, hany]
  · intro hstale
    have hpg : physGone t s = true := by
      simp only [physGone, ttlMillis, CACHE_TTL] at hstale ⊢
      simp; omega
    simp [hset, RedisCacheService.getAllPosts, hh, hpg]

/-- Witness for C7: a one-entry list stamped at time 0 is returned whole at
time 100 and absent at time 1000000. -/
theorem setAllPosts_roundtrip_witness :
    RedisCacheService.getAllPosts
      (RedisCacheService.setAllPosts availCache [staleCached] 0) 100
        = some [staleCached] ∧
    RedisCacheService.getAllPosts
      (RedisCacheService.setAllPosts availCache [staleCached] 0) 1000000
        = none := by
  have h1 := setAllPosts_roundtrip availCache ⟨none, []⟩ [staleCached] 0 100
    rfl rfl (by decide)
  have h2 := setAllPosts_roundtrip availCache ⟨none, []⟩ [staleCached] 0
    1000000 rfl rfl (by decide)
  exact ⟨h1.1 (by decide), h2.2 (by decide)⟩

/-- Claim C9: every CacheStore operation absorbs backend failure internally:
whenever the backend is unconfigured or erroring, the reads return absent,
the writes complete as no-ops leaving the state unchanged, and `isAvailable`
returns false (each modelled operation is a total function, so no exception
reaches the caller). -/
theorem cache_ops_degrade (st : CacheState)
    (h : st.redis = none ∨ st.healthy = false) :
    (∀ now, RedisCacheService.getAllPosts st now = none) ∧
    (∀ id now, RedisCacheService.getPost st id now = none) ∧
    (∀ posts now, RedisCacheService.setAllPosts st posts now = st) ∧
    (∀ p now, RedisCacheService.setPost st p now = st) ∧
    (∀ id, RedisCacheService.invalidatePost st id = st) ∧
    RedisCacheService.invalidateAllPosts st = st ∧
    RedisCacheService.isAvailable st = false := by
  rcases h with h | h
  · simp [RedisCacheService.getAllPosts, RedisCacheService.getPost,
      RedisCacheService.setAllPosts, RedisCacheService.setPost,
      RedisCacheService.invalidatePost, RedisCacheService.invalidateAllPosts,
      RedisCacheService.isAvailable, h]
  · cases hr : st.redis <;>
      simp [RedisCacheService.getAllPosts, RedisCacheService.getPost,
        RedisCacheService.setAllPosts, RedisCacheService.setPost,
        RedisCacheService.invalidatePost, RedisCacheService.invalidateAllPosts,
        RedisCacheService.isAvailable, h, hr]

/-- Witness for C9 at the unconfigured backend. -/
theorem cache_ops_degrade_witness :
    RedisCacheService.getAllPosts ⟨none, true⟩ 0 = none ∧
    RedisCacheService.getPost ⟨none, true⟩ "1" 0 = none ∧
    RedisCacheService.setAllPosts ⟨none, true⟩ [] 0 = ⟨none, true⟩ ∧
    RedisCacheService.setPost ⟨none, true⟩ staleCached 0 = ⟨none, true⟩ ∧
    RedisCacheService.invalidatePost ⟨none, true⟩ "1" = ⟨none, true⟩ ∧
    RedisCacheService.invalidateAllPosts ⟨none, true⟩ = ⟨none, true⟩ ∧
    RedisCacheService.isAvailable ⟨none, true⟩ = false := by
  have h := cache_ops_degrade ⟨none, true⟩ (Or.inl rfl)
  exact ⟨h.1 0, h.2.1 "1" 0, h.2.2.1 [] 0, h.2.2.2.1 staleCached 0,
    h.2.2.2.2.1 "1", h.2.2.2.2.2.1, h.2.2.2.2.2.2⟩

/-- Claim C2: when the durable write fails during `createPost`, the
coordinator removes the optimistic single-post cache entry for the new id, so
the cache holds no entry for that id afterwards, and the caller receives the
failure signal (absent result). -/
theorem createPost_rollback (w : World) (draft : PostDraft) (now : Int)
    (havail : RedisCacheService.isAvailable w.cache = true) :
    (GitHubService.createPost w draft now false).1 = none ∧
    cacheEntry (GitHubService.createPost w draft now false).2.cache
      (toString now) = none := by
  obtain ⟨⟨d, hd⟩, hh⟩ := (isAvailable_true_iff w.cache).mp havail
  constructor
  · simp [GitHubService.createPost, havail]
  · simp [GitHubService.createPost, havail, RedisCacheService.setPost,
      RedisCacheService.invalidatePost, hd, hh, cacheEntry, mkNewPost,
      toCached, lookup_delEntry_self]

/-- Witness for C2: creating against a failing durable store from the initial
world leaves no cache entry for the new id and reports failure. -/
theorem createPost_rollback_witness :
    (GitHubService.createPost initWorld sampleDraft 5 false).1 = none ∧
    cacheEntry (GitHubService.createPost initWorld sampleDraft 5 false).2.cache
      (toString (5 : Int)) = none :=
  createPost_rollback initWorld sampleDraft 5 (by decide)

/-- Claim C3: when the durable write fails during `updatePost` of an existing
post, the single-post cache entry for that id is re-set to the pre-update
post re-stamped with a fresh cache time (not the merged update), and the
caller receives the failure signal. -/
theorem updatePost_revert (w : World) (id : String) (updates : PostUpdates)
    (now : Int) (readOk : Bool) (existingPost : BlogPost)
    (hget : (GitHubService.getPost w id now readOk).1 = some existingPost)
    (hid : existingPost.id = id)
    (havail : RedisCacheService.isAvailable w.cache = true) :
    (GitHubService.updatePost w id updates now readOk false).1 = none ∧
    RedisCacheService.getPost
      (GitHubService.updatePost w id updates now readOk false).2.cache id now
        = some (toCached existingPost now) := by
  obtain ⟨⟨d, hd⟩, hh⟩ := (isAvailable_true_iff w.cache).mp havail
  have hpg : physGone now now = false := by
    simp only [physGone, ttlMillis, CACHE_TTL, decide_eq_false_iff_not]
    omega
  have hst : isStale now now = false := by
    simp only [isStale, ttlMillis, CACHE_TTL, decide_eq_false_iff_not]
    omega
  constructor
  · simp [GitHubService.updatePost, hget, havail]
  · simp [GitHubService.updatePost, hget, havail, RedisCacheService.setPost,
      RedisCacheService.getPost, hd, hh, hid, toCached,
      lookup_setEntry_self, hpg, hst]

/-- Witness for C3: updating post "7" with a failing durable write, starting
from a world whose durable store holds it and whose cache is empty, reverts
the cache entry to the pre-update post stamped at the call time. -/
theorem updatePost_revert_witness :
    (GitHubService.updatePost ⟨availCache, [("7", samplePost)]⟩ "7"
      sampleUpdates 9 true false).1 = none ∧
    RedisCacheService.getPost
      (GitHubService.updatePost ⟨availCache, [("7", samplePost)]⟩ "7"
        sampleUpdates 9 true false).2.cache "7" 9
          = some (toCached samplePost 9) :=
  updatePost_revert ⟨availCache, [("7", samplePost)]⟩ "7" sampleUpdates 9
    true samplePost (by decide) (by decide) (by decide)

/-- Claim C4: a successful `createPost` returns the assembled post, and an
immediate `getPost` with the returned id yields a record equal to it
field-for-field (the cache stamp is not part of the returned record), both
when the cache is available (cache-hit path) and when it is unavailable
(durable-read path, durable read succeeding). -/
theorem create_then_get (w : World) (draft : PostDraft) (now : Int) :
    (GitHubService.createPost w draft now true).1
        = some (mkNewPost draft now) ∧
    (RedisCacheService.isAvailable w.cache = true → ∀ readOk,
      (GitHubService.getPost (GitHubService.createPost w draft now true).2
        (mkNewPost draft now).id now readOk).1 = some (mkNewPost draft now)) ∧
    (RedisCacheService.isAvailable w.cache = false →
      (GitHubService.getPost (GitHubService.createPost w draft now true).2
        (mkNewPost draft now).id now true).1 = some (mkNewPost draft now)) := by
  refine ⟨?_, ?_, ?_⟩
  · by_cases ha : RedisCacheService.isAvailable w.cache <;>
      simp [GitHubService.createPost, ha]
  · intro havail readOk
    obtain ⟨⟨d, hd⟩, hh⟩ := (isAvailable_true_iff w.cache).mp havail
    have hpg : physGone now now = false := by
      simp only [physGone, ttlMillis, CACHE_TTL, decide_eq_false_iff_not]
      omega
    have hst : isStale now now = false := by
      simp only [isStale, ttlMillis, CACHE_TTL, decide_eq_false_iff_not]
      omega
    simp [GitHubService.createPost, GitHubService.getPost, havail,
      RedisCacheService.setPost, RedisCacheService.invalidateAllPosts,
      RedisCacheService.getPost, RedisCacheService.isAvailable, hd, hh,
      toCached, mkNewPost, lookup_setEntry_self, hpg, hst, toBlogPost]
  · intro hnot
    simp [GitHubService.createPost, GitHubService.getPost, hnot,
      lookup_setEntry_self]

/-- Witness for C4: both scenarios at time 5 from an empty world, once with
the cache configured and once without. -/
theorem create_then_get_witness :
    (GitHubService.createPost initWorld sampleDraft 5 true).1
        = some (mkNewPost sampleDraft 5) ∧
    (GitHubService.getPost (GitHubService.createPost initWorld sampleDraft 5
      true).2 (mkNewPost sampleDraft 5).id 5 true).1
        = some (mkNewPost sampleDraft 5) ∧
    (GitHubService.getPost (GitHubService.createPost noCacheWorld sampleDraft
      5 true).2 (mkNewPost sampleDraft 5).id 5 true).1
        = some (mkNewPost sampleDraft 5) :=
  ⟨(create_then_get initWorld sampleDraft 5).1,
   (create_then_get initWorld sampleDraft 5).2.1 (by decide) true,
   (create_then_get noCacheWorld sampleDraft 5).2.2 (by decide)⟩

/-- Claim C5: `updatePost` on an id whose read yields absent fails with the
absent result and performs no mutation: both the cache state and the durable
store state are left exactly as they were. -/
theorem updatePost_notfound (w : World) (id : String) (updates : PostUpdates)
    (now : Int) (readOk writeOk : Bool)
    (h : (GitHubService.getPost w id now readOk).1 = none) :
    GitHubService.updatePost w id updates now readOk writeOk = (none, w) := by
  simp [GitHubService.updatePost, h]

/-- Witness for C5: updating the nonexistent id "9" in the initial world. -/
theorem updatePost_notfound_witness :
    GitHubService.updatePost initWorld "9" sampleUpdates 3 true true
      = (none, initWorld) :=
  updatePost_notfound initWorld "9" sampleUpdates 3 true true (by decide)

/-- Claim C6: the coordinator reads `getAllPosts` and `getPost` never write
to the cache: they leave the whole world (in particular the entire cache
state) unchanged on every path, and on cache unavailability or cache miss
they return exactly the durable-store fetch. -/
theorem reads_leave_cache_unchanged (w : World) (now : Int) (listOk : Bool)
    (failIds : List String) (id : String) (readOk : Bool) :
    (GitHubService.getAllPosts w now listOk failIds).2 = w ∧
    (GitHubService.getPost w id now readOk).2 = w ∧
    ((RedisCacheService.isAvailable w.cache = false ∨
        RedisCacheService.getAllPosts w.cache now = none) →
      (GitHubService.getAllPosts w now listOk failIds).1 =
        ghFetchAllSorted w.github listOk failIds) ∧
    ((RedisCacheService.isAvailable w.cache = false ∨
        RedisCacheService.getPost w.cache id now = none) →
      (GitHubService.getPost w id now readOk).1 =
        (if readOk then w.github.lookup id else none)) := by
  refine ⟨getAllPosts_snd w now listOk failIds, getPost_snd w id now readOk,
    ?_, ?_⟩
  · rintro (h | h) <;> simp [GitHubService.getAllPosts, h]
  · rintro (h | h) <;> simp [GitHubService.getPost, h]

/-- Witness for C6 at the initial world (cache configured, empty, a miss on
every key). -/
theorem reads_leave_cache_unchanged_witness :
    (GitHubService.getAllPosts initWorld 0 true []).2 = initWorld ∧
    (GitHubService.getPost initWorld "1" 0 true).2 = initWorld ∧
    (GitHubService.getAllPosts initWorld 0 true []).1 =
      ghFetchAllSorted initWorld.github true [] ∧
    (GitHubService.getPost initWorld "1" 0 true).1 =
      (if true then initWorld.github.lookup "1" else none) := by
  have h := reads_leave_cache_unchanged initWorld 0 true [] "1" true
  exact ⟨h.1, h.2.1, h.2.2.1 (Or.inr (by decide)), h.2.2.2 (Or.inr (by decide))⟩

/-- A concrete operation sequence: two successful creates at times 5 and 9. -/
def witnessOps : List Op :=
  [Op.create sampleDraft 5 true, Op.create ⟨"u", "v", "x", false⟩ 9 true]

/-- Claim C8: every list the coordinator's `getAllPosts` returns, in any
execution starting from a world with no cached list snapshot, is sorted by
`createdAt` descending: each adjacent pair has the earlier element's
`createdAt` greater than or equal to the later one's.  No coordinator
operation ever stores a list snapshot, so in these executions the cache-hit
branch never serves a list and every returned list comes from the durable
fetch, which sorts. -/
theorem getAllPosts_sorted (w0 : World) (ops : List Op)
    (h0 : listSnapshot w0.cache = none) (now : Int) (listOk : Bool)
    (failIds : List String) :
    List.Chain' (fun a b => b.createdAt ≤ a.createdAt)
      (GitHubService.getAllPosts (applyOps w0 ops) now listOk failIds).1 := by
  have hsnap := listSnapshot_applyOps ops w0 h0
  rw [coord_getAllPosts_durable _ now listOk failIds hsnap]
  exact chain_ghFetchAllSorted _ listOk failIds

/-- Witness for C8: the list read after two creates is sorted. -/
theorem getAllPosts_sorted_witness :
    List.Chain' (fun a b => b.createdAt ≤ a.createdAt)
      (GitHubService.getAllPosts (applyOps initWorld witnessOps) 9 true []).1 :=
  getAllPosts_sorted initWorld witnessOps (by decide) 9 true []

/-- Claim C10: no coordinator operation ever calls `setAllPosts`: starting
from a cache state with no list snapshot, after every finite sequence of
coordinator operations the cache still holds no list snapshot, so the
list-level cache-hit branch of the coordinator's `getAllPosts` is never taken
and every coordinator list read is served from the durable store. -/
theorem no_list_snapshot_invariant (w0 : World) (ops : List Op)
    (h0 : listSnapshot w0.cache = none) :
    listSnapshot (applyOps w0 ops).cache = none ∧
    ∀ now listOk failIds,
      (GitHubService.getAllPosts (applyOps w0 ops) now listOk failIds).1 =
        ghFetchAllSorted (applyOps w0 ops).github listOk failIds := by
  have hsnap := listSnapshot_applyOps ops w0 h0
  exact ⟨hsnap, fun now listOk failIds =>
    coord_getAllPosts_durable _ now listOk failIds hsnap⟩

/-- Witness for C10: after two creates the snapshot is still absent and the
list read equals the durable fetch. -/
theorem no_list_snapshot_invariant_witness :
    listSnapshot (applyOps initWorld witnessOps).cache = none ∧
    (GitHubService.getAllPosts (applyOps initWorld witnessOps) 9 true []).1 =
      ghFetchAllSorted (applyOps initWorld witnessOps).github true [] := by
  have h := no_list_snapshot_invariant initWorld witnessOps (by decide)
  exact ⟨h.1, h.2 9 true []⟩
